import Mathlib

/-
A shallow embedding of the core of the vse-sync collection tools:
the collector selection algorithm (pkg/runner/collector_selector.go),
the PTP and GPS collectors (pkg/collectors), the per-call container
exec session (pkg/clients/exec_command.go), pod deletion with a bounded
wait, the persistent shell command serializer, and the GNSS firmware
version validation (pkg/vaildations/gnss.go).

Modelling conventions: Go maps are association lists, remote side
effects (kubernetes API calls, remote exec streams) are explicit oracle
values handed to each function, Go errors are strings or small inductive
types, and time-bounded polling loops are recursions over a finite trace
of observations (one entry per loop iteration; an exhausted trace models
the deadline elapsing).
-/

namespace Clients

/-- Models k8s API errors as seen through k8sErrors.IsNotFound: either a
not-found response or anything else. -/
inductive K8sErr where
  | notFound
  | other (msg : String)
deriving DecidableEq, Repr

/-- Models k8sErrors.IsNotFound from exec_command.go line 139. -/
def isNotFound : K8sErr → Bool
  | .notFound => true
  | .other _ => false

/-- ContainerExecContext (exec_command.go lines 39 to 45): namespace, pod
name, container name and the pod name prefix. The clientset pointer is
not state, it is the oracle below. The Go field podNamePrefix is called
pfx here. -/
structure ContainerExecContext where
  ns : String
  podName : String
  containerName : String
  pfx : String
deriving DecidableEq, Repr

/-- The external world one execCommand call can observe: the result of
NewSPDYExecutor, the captured stdout and stderr plus error of the single
StreamWithContext call, and the result clientset.FindPodNameFromPrefix
would give if consulted. -/
structure ExecWorld where
  setupErr : Option K8sErr
  streamStdout : String
  streamStderr : String
  streamErr : Option K8sErr
  findPodNameFromPfx : Except K8sErr String

/-- The two wrapped error shapes produced by execCommand: error setting
up remote command (wrapping the NewSPDYExecutor error) and error running
remote command (wrapping the stream error). -/
inductive ExecCmdErr where
  | setupFailed (e : K8sErr)
  | runFailed (e : K8sErr)
deriving DecidableEq, Repr

/-- What one execCommand call returns and does: outputs, error, the
context left behind for later calls, and how many remote exec stream
attempts were made. -/
structure ExecCallResult where
  stdout : String
  stderr : String
  err : Option ExecCmdErr
  ctxAfter : ContainerExecContext
  streamCalls : Nat
deriving Repr

/-- refresh (exec_command.go lines 47 to 54): re-resolve the pod name
from the stored prefix; on success only podName changes. -/
def refresh (c : ContainerExecContext) (w : ExecWorld) :
    ContainerExecContext × Option K8sErr :=
  match w.findPodNameFromPfx with
  | .error e => (c, some e)
  | .ok newPodname => ({ c with podName := newPodname }, none)

/-- execCommand (exec_command.go lines 87 to 158). Setup failure returns
before any stream attempt. Otherwise exactly one stream attempt is made;
stdout and stderr are always taken from its buffers. On a stream error
that is not-found the context is refreshed (a failed refresh is only
logged), and the original stream error is returned wrapped; there is no
second attempt. -/
def execCommand (c : ContainerExecContext) (w : ExecWorld) : ExecCallResult :=
  match w.setupErr with
  | some e =>
    { stdout := "", stderr := "", err := some (.setupFailed e),
      ctxAfter := c, streamCalls := 0 }
  | none =>
    match w.streamErr with
    | none =>
      { stdout := w.streamStdout, stderr := w.streamStderr, err := none,
        ctxAfter := c, streamCalls := 1 }
    | some e =>
      let c2 := if isNotFound e then (refresh c w).1 else c
      { stdout := w.streamStdout, stderr := w.streamStderr,
        err := some (.runFailed e), ctxAfter := c2, streamCalls := 1 }

/-- Propagation policy passed to the pod delete call. -/
inductive PropPolicy where
  | foreground
  | background
  | orphan
deriving DecidableEq, Repr

/-- The delete request deletePod (exec_command.go lines 309 to 321)
issues: the stored pod name with metav1.DeletePropagationForeground. -/
structure DeleteRequest where
  name : String
  policy : PropPolicy
deriving DecidableEq, Repr

def deletePodRequest (c : ContainerExecContext) : DeleteRequest :=
  { name := c.podName, policy := .foreground }

/-- The world DeletePodAndWait observes: the error (if any) of the delete
API call, and the successive pod listings the wait loop sees, one per
iteration; each is either a listing error or the list of pod names. The
finite trace length models the deletion timeout budget. -/
structure DeleteWorld where
  deleteErr : Option String
  listings : List (Except String (List String))

/-- waitForPodToDelete (exec_command.go lines 323 to 342): poll the
listing; a listing error is returned as is; success once the pod name is
absent from a listing; once the trace (the time budget) is exhausted the
timeout error is returned. -/
def waitForPodToDelete (podName : String) :
    List (Except String (List String)) → Except String Unit
  | [] => .error "pod has not terminated within the timeout"
  | l :: rest =>
    match l with
    | .error e => .error e
    | .ok pods =>
      if podName ∈ pods then waitForPodToDelete podName rest
      else .ok ()

/-- DeletePodAndWait (exec_command.go lines 344 to 350): deletePod, whose
error (wrapped as failed to delete pod) is returned immediately, then
waitForPodToDelete. -/
def DeletePodAndWait (c : ContainerExecContext) (w : DeleteWorld) :
    Except String Unit :=
  match w.deleteErr with
  | some e => .error ("failed to delete pod: " ++ e)
  | none => waitForPodToDelete c.podName w.listings

/-- One response of the persistent shell: captured stdout, the drained
stderr buffer, and the Expect error if any (exec_command.go lines 463 to
468). -/
structure ShellResult where
  stdout : String
  stderr : String
  err : Option String
deriving DecidableEq, Repr

/-- The command serializer goroutine of ReusedConnectionContext.openShell
(exec_command.go lines 452 to 471): a single consumer of the command
channel, handling one command at a time against the stateful shell
(Send, Expect on the prompt pattern, read and reset the stderr buffer)
and delivering the result on that command response channel before taking
the next command. The channel is a FIFO queue, so the consumer is a
structural recursion over the submitted command list; step is the effect
of running one command line on the shell state. -/
def processCommands {σ : Type} (step : σ → String → ShellResult × σ) :
    σ → List String → List ShellResult × σ
  | s, [] => ([], s)
  | s, cmd :: rest =>
    let r := step s cmd
    let rs := processCommands step r.2 rest
    (r.1 :: rs.1, rs.2)

/-- A sample world for one exec call: setup succeeds, the stream fails
with a not-found response after capturing some output, and the name
lookup from the prefix resolves to a fresh pod name. Used to instantiate
theorems on concrete inputs. -/
def sampleExecWorld : ExecWorld :=
  { setupErr := none, streamStdout := "ubx payload",
    streamStderr := "warning", streamErr := some .notFound,
    findPodNameFromPfx := .ok "linuxptp-daemon-new12" }

end Clients

namespace Runner

/-- isIn (collector_selector.go lines 24 to 31). -/
def isIn (name : String) (arr : List String) : Bool :=
  match arr with
  | [] => false
  | arrVal :: rest => if name = arrVal then true else isIn name rest

/-- The loop body of removeDuplicates with its accumulator res. -/
def removeDuplicatesAux (res : List String) : List String → List String
  | [] => res
  | name :: rest =>
    if isIn name res then removeDuplicatesAux res rest
    else removeDuplicatesAux (res ++ [name]) rest

/-- removeDuplicates (collector_selector.go lines 33 to 41). -/
def removeDuplicates (arr : List String) : List String :=
  removeDuplicatesAux [] arr

/-- ASCII case folding of one character, as Go strings.EqualFold behaves
on ASCII input (the only input compared here is the literal all). -/
def charFold (c : Char) : Char :=
  if 'A' ≤ c ∧ c ≤ 'Z' then Char.ofNat (c.toNat + 32) else c

/-- Models strings.EqualFold for ASCII strings. -/
def eqFold (a b : String) : Bool :=
  a.data.map charFold = b.data.map charFold

/-- The loop of GetCollectorsToRun over the requested names, with the
accumulated collectorNames acc. The registered optional collector names
(the package variable OptionalCollectorNames) are the parameter opt.
On a name equal-folding to all, every optional name is appended, the
whole accumulator is de-duplicated and returned at once (the remaining
requests are ignored). A name already accumulated is skipped; a name
found (by exact comparison) among the optional names is appended; any
other name is logged and dropped. -/
def getCollectorsToRunAux (opt : List String) (acc : List String) :
    List String → List String
  | [] => acc
  | name :: rest =>
    if eqFold name "all" then removeDuplicates (acc ++ opt)
    else if isIn name acc then getCollectorsToRunAux opt acc rest
    else if isIn name opt then getCollectorsToRunAux opt (acc ++ [name]) rest
    else getCollectorsToRunAux opt acc rest

/-- GetCollectorsToRun (collector_selector.go lines 46 to 64). The Go
function reads the package variables RequiredCollectorNames and
OptionalCollectorNames; they are explicit parameters here. The
accumulator starts as the required names. -/
def GetCollectorsToRun (required opt : List String)
    (selectedCollectors : List String) : List String :=
  getCollectorsToRunAux opt required selectedCollectors

end Runner

namespace Collectors

def PTPCollectorName : String := "PTP"
def GPSCollectorName : String := "GPS-UBX"
def VendorIntel : String := "0x8086"
def DeviceE810 : String := "0x1593"
def DeviceInfo : String := "device-info"
def DPLLInfo : String := "dpll-info"
def GNSSDev : String := "gnss-dev"
def All : String := "all"
def GPSNavKey : String := "gpsNav"

/-- ptpCollectables (part_001 lines 48 to 52): GNSSDev is commented out
in the source. -/
def ptpCollectables : List String := [DeviceInfo, DPLLInfo]

/-- devices.PTPDeviceInfo. -/
structure PTPDeviceInfo where
  VendorID : String
  DeviceID : String
  TtyGNSS : String
deriving DecidableEq, Repr

/-- devices.DevDPLLInfo. -/
structure DevDPLLInfo where
  State : String
  Offset : String
deriving DecidableEq, Repr

/-- PollResult: collector name plus the aggregated errors of one cycle
(errors modelled as their messages). -/
structure PollResult where
  CollectorName : String
  Errors : List String
deriving DecidableEq, Repr

/-- Go map write running[k] = v on an association list with unique
keys. -/
def setRunning : List (String × Bool) → String → Bool → List (String × Bool)
  | [], k, v => [(k, v)]
  | (k0, v0) :: rest, k, v =>
    if k0 = k then (k0, v) :: rest else (k0, v0) :: setRunning rest k v

/-- Go map delete(running, k) on an association list with unique keys. -/
def delRunning : List (String × Bool) → String → List (String × Bool)
  | [], _ => []
  | (k0, v0) :: rest, k =>
    if k0 = k then rest else (k0, v0) :: delRunning rest k

/-- The key set of the running map. -/
def runningKeys (running : List (String × Bool)) : List String :=
  running.map Prod.fst

/-- PTPCollector (part_001 lines 20 to 30): the mutable running map, the
fixed DataTypes array, plus the construction-time data (the data map
entries for DeviceInfo and DPLLInfo, the interface name and the exec
context). The callback and sync primitives live in the oracle. -/
structure PTPCollector where
  DataTypes : List String
  running : List (String × Bool)
  interfaceName : String
  ctx : Clients.ContainerExecContext
  devInfoData : PTPDeviceInfo
  dpllData : DevDPLLInfo
deriving DecidableEq, Repr

/-- The error text of getNotCollectableError (part_001 lines 58 to 60). -/
def notCollectableError (key : String) : String :=
  "key " ++ key ++ " is not a colletable of *collectors.PTPCollector"

/-- getErrorIfNotCollectable (part_001 lines 62 to 69). -/
def getErrorIfNotCollectable (dataTypes : List String) (key : String) :
    Option String :=
  if key ∈ dataTypes then none else some (notCollectableError key)

/-- PTPCollector.Start (part_001 lines 73 to 88): the literal key all
marks every data type running; a collectable key is marked running; any
other key yields the not-collectable error and no state change. -/
def Start (dev : PTPCollector) (key : String) : PTPCollector × Option String :=
  if key = All then
    ({ dev with
        running := dev.DataTypes.foldl (fun r dt => setRunning r dt true)
          dev.running }, none)
  else
    match getErrorIfNotCollectable dev.DataTypes key with
    | some e => (dev, some e)
    | none => ({ dev with running := setRunning dev.running key true }, none)

/-- PTPCollector.CleanUp (part_001 lines 168 to 180): the key all resets
the running map to empty; a collectable key is deleted from the map; any
other key yields the not-collectable error and no state change. -/
def CleanUp (dev : PTPCollector) (key : String) : PTPCollector × Option String :=
  if key = All then ({ dev with running := [] }, none)
  else
    match getErrorIfNotCollectable dev.DataTypes key with
    | some e => (dev, some e)
    | none => ({ dev with running := delRunning dev.running key }, none)

/-- One control-path call on the collector. -/
inductive CollectorCall where
  | start (key : String)
  | cleanUp (key : String)

def applyCall (dev : PTPCollector) : CollectorCall → PTPCollector × Option String
  | .start k => Start dev k
  | .cleanUp k => CleanUp dev k

/-- Replay a sequence of Start and CleanUp calls, keeping the state. -/
def replayCalls (dev : PTPCollector) : List CollectorCall → PTPCollector
  | [] => dev
  | c :: rest => replayCalls (applyCall dev c).1 rest

/-- The collector name string fmt.Sprintf %T produces for the callback
argument in PTPCollector.Poll. -/
def ptpTypeName : String := "*collectors.PTPCollector"

/-- The remote world one PTPCollector.Poll cycle observes: for each key,
what fetchLine would produce (the fetched and marshalled line, or the
wrapped fetch or marshal error), and what the sink callback returns for
a given (collector name, key, line) triple. -/
structure PTPPollWorld where
  fetchLine : String → Except String String
  callbackCall : String → String → String → Option String

/-- The loop of PTPCollector.Poll (part_001 lines 144 to 157) over the
running map: keys whose value is true are fetched; a fetch error is
recorded, otherwise the callback is invoked and its error, if any, is
recorded; keys with value false are skipped. -/
def pollErrorsPTP (w : PTPPollWorld) : List (String × Bool) → List String
  | [] => []
  | (key, isRunning) :: rest =>
    if isRunning then
      match w.fetchLine key with
      | .error e => e :: pollErrorsPTP w rest
      | .ok line =>
        match w.callbackCall ptpTypeName key line with
        | some e => e :: pollErrorsPTP w rest
        | none => pollErrorsPTP w rest
    else pollErrorsPTP w rest

/-- PTPCollector.Poll (part_001 lines 138 to 165): one PollResult is sent
on the results channel, carrying the errors aggregated over the running
keys. -/
def ptpPoll (running : List (String × Bool)) (w : PTPPollWorld) : PollResult :=
  { CollectorName := PTPCollectorName, Errors := pollErrorsPTP w running }

/-- Whether one running key fails this cycle: its fetch fails, or the
fetch succeeds and the callback rejects the line. -/
def keyFails (w : PTPPollWorld) (key : String) : Bool :=
  match w.fetchLine key with
  | .error _ => true
  | .ok line => (w.callbackCall ptpTypeName key line).isSome

/-- GPSCollector (gps_ubx_collector.go lines 23 to 31): the single
running flag and the poll counter. -/
structure GPSCollector where
  running : Bool
  count : Nat
deriving DecidableEq, Repr

/-- The collector name string fmt.Sprintf %T produces for the callback
argument in GPSCollector.Poll. -/
def gpsTypeName : String := "*collectors.GPSCollector"

/-- The remote world one GPSCollector.Poll cycle observes: the result of
devices.GetGPSNav (a navigation payload, abstract here), what marshalling
that payload yields, and the sink callback result. -/
structure GPSPollWorld where
  getGPSNav : Except String String
  marshal : String → Except String String
  callbackCall : String → String → String → Option String

/-- What one GPSCollector.Poll cycle produces: the PollResult values sent
on the channel in order, the collector state afterwards, and whether a
fetch (GetGPSNav) was attempted. -/
structure GPSPollOutcome where
  sent : List PollResult
  after : GPSCollector
  fetchAttempted : Bool
deriving DecidableEq, Repr

/-- GPSCollector.Poll (gps_ubx_collector.go lines 55 to 92). Note the
source never consults gps.running: GetGPSNav is attempted
unconditionally. Each failure path sends one single-error PollResult and
returns; on full success the counter is incremented and one empty-error
PollResult is sent. -/
def gpsPoll (gps : GPSCollector) (w : GPSPollWorld) : GPSPollOutcome :=
  match w.getGPSNav with
  | .error e =>
    { sent := [{ CollectorName := GPSCollectorName, Errors := [e] }],
      after := gps, fetchAttempted := true }
  | .ok gpsNav =>
    match w.marshal gpsNav with
    | .error e =>
      { sent := [{ CollectorName := GPSCollectorName, Errors := [e] }],
        after := gps, fetchAttempted := true }
    | .ok line =>
      match w.callbackCall gpsTypeName GPSNavKey line with
      | some e =>
        { sent := [{ CollectorName := GPSCollectorName, Errors := [e] }],
          after := gps, fetchAttempted := true }
      | none =>
        { sent := [{ CollectorName := GPSCollectorName, Errors := [] }],
          after := { gps with count := gps.count + 1 }, fetchAttempted := true }

/-- The world CollectionConstuctor.NewPTPCollector observes: the result
of clients.NewContainerContext and of the two initial device fetches.
The PTPInterface and callback of the constructor are carried along. -/
structure NewPTPWorld where
  newContainerContext : Except String Clients.ContainerExecContext
  getPTPDeviceInfo : Except String PTPDeviceInfo
  getDevDPLLInfo : Except String DevDPLLInfo
  ptpInterface : String

/-- CollectionConstuctor.NewPTPCollector (part_001 lines 185 to 220):
context creation and the two initial fetches each abort with a wrapped
error; then the fetched device info must report the Intel vendor id and
the E810 device id, otherwise the construction fails with the error NIC
device is not based on E810 and no collector is produced. On success the
collector starts with an empty running map. (The Go type assertion on
the data map entry cannot fail in this typed model.) -/
def NewPTPCollector (w : NewPTPWorld) : Except String PTPCollector :=
  match w.newContainerContext with
  | .error e => .error ("could not create container context " ++ e)
  | .ok ctx =>
    match w.getPTPDeviceInfo with
    | .error e => .error ("failed to fetch initial DeviceInfo " ++ e)
    | .ok ptpDevInfo =>
      match w.getDevDPLLInfo with
      | .error e => .error ("failed to fetch initial DevDPLLInfo " ++ e)
      | .ok dpllInfo =>
        if ptpDevInfo.VendorID ≠ VendorIntel ∨ ptpDevInfo.DeviceID ≠ DeviceE810
        then .error "NIC device is not based on E810"
        else .ok
          { interfaceName := w.ptpInterface, ctx := ctx,
            DataTypes := ptpCollectables, devInfoData := ptpDevInfo,
            dpllData := dpllInfo, running := [] }

/-- A sample exec context, used to instantiate theorems on concrete
inputs. -/
def sampleCtx : Clients.ContainerExecContext :=
  { ns := "openshift-ptp", podName := "linuxptp-daemon-x7b2f",
    containerName := "linuxptp-daemon-container", pfx := "linuxptp-daemon-" }

/-- A sample freshly constructed PTP collector (empty running map), used
to instantiate theorems on concrete inputs. -/
def samplePTP : PTPCollector :=
  { DataTypes := ptpCollectables, running := [], interfaceName := "ens1f0",
    ctx := sampleCtx,
    devInfoData := { VendorID := VendorIntel, DeviceID := DeviceE810,
                     TtyGNSS := "/dev/gnss0" },
    dpllData := { State := "3", Offset := "0" } }

end Collectors

namespace Vaildations

def gnssID : String := "GNSS Version is valid"
def MinGNSSVersion : String := "2.20"

/-- Go strings.Split with a one-character separator, on the character
list of the string: splitting around every occurrence of c, keeping
empty segments; an input without c yields the one-element list of the
whole input. -/
def splitOnChar (c : Char) : List Char → List (List Char)
  | [] => [[]]
  | x :: xs =>
    let rest := splitOnChar c xs
    if x = c then [] :: rest
    else
      match rest with
      | [] => [[x]]
      | r :: rs => (x :: r) :: rs

/-- strings.Split(s, " ") as used by NewGNSS. -/
def goSplitSpace (s : String) : List String :=
  (splitOnChar ' ' s.data).map fun l => String.mk l

/-- devices.GPSDetails, keeping the field NewGNSS reads; the other
fields (nav status, antenna details, nav clock) do not influence it. -/
structure GPSDetails where
  FirmwareVersion : String
deriving DecidableEq, Repr

/-- VersionCheck as filled by NewGNSS. -/
structure VersionCheck where
  id : String
  Version : String
  checkVersion : String
  minVersion : String
deriving DecidableEq, Repr

/-- NewGNSS (gnss.go lines 17 to 25): split the firmware version on
spaces and take the element at index 1 as the version to check. The Go
index expression parts[1] panics when the split has fewer than two
elements; the panic is the none case here. -/
def NewGNSS (gnss : GPSDetails) : Option VersionCheck :=
  let parts := goSplitSpace gnss.FirmwareVersion
  match parts.get? 1 with
  | none => none
  | some cv =>
    some { id := gnssID, Version := gnss.FirmwareVersion,
           checkVersion := cv, minVersion := MinGNSSVersion }

end Vaildations

namespace Runner

theorem isIn_iff (name : String) (arr : List String) :
    isIn name arr = true ↔ name ∈ arr := by
  induction arr with
  | nil => simp [isIn]
  | cons a rest ih => by_cases h : name = a <;> simp [isIn, h, ih]

theorem isIn_eq_false (name : String) (arr : List String)
    (h : isIn name arr = false) : name ∉ arr := by
  intro hm
  rw [(isIn_iff name arr).mpr hm] at h
  cases h

theorem nodup_append_single (acc : List String) (x : String) (h : acc.Nodup)
    (hx : isIn x acc = false) : (acc ++ [x]).Nodup := by
  have hnx : x ∉ acc := isIn_eq_false x acc hx
  simp [List.nodup_append, h, hnx]

theorem removeDuplicatesAux_append (xs res : List String) :
    ∃ rest, removeDuplicatesAux res xs = res ++ rest := by
  induction xs generalizing res with
  | nil => exact ⟨[], by simp [removeDuplicatesAux]⟩
  | cons x xs ih =>
    cases hx : isIn x res with
    | true =>
      obtain ⟨r, hr⟩ := ih res
      exact ⟨r, by simp [removeDuplicatesAux, hx, hr]⟩
    | false =>
      obtain ⟨r, hr⟩ := ih (res ++ [x])
      exact ⟨[x] ++ r, by simp [removeDuplicatesAux, hx, hr]⟩

theorem removeDuplicatesAux_nodup (xs res : List String) (h : res.Nodup) :
    (removeDuplicatesAux res xs).Nodup := by
  induction xs generalizing res with
  | nil => simpa [removeDuplicatesAux] using h
  | cons x xs ih =>
    cases hx : isIn x res with
    | true => simpa [removeDuplicatesAux, hx] using ih res h
    | false =>
      simpa [removeDuplicatesAux, hx] using
        ih (res ++ [x]) (nodup_append_single res x h hx)

theorem mem_removeDuplicatesAux (xs res : List String) (x : String) :
    x ∈ removeDuplicatesAux res xs ↔ x ∈ res ∨ x ∈ xs := by
  induction xs generalizing res with
  | nil => simp [removeDuplicatesAux]
  | cons y ys ih =>
    cases hy : isIn y res with
    | true =>
      have hyres : y ∈ res := (isIn_iff y res).mp hy
      rw [removeDuplicatesAux]
      simp only [hy, if_true, ih res, List.mem_cons]
      constructor
      · tauto
      · rintro (h | rfl | h) <;> tauto
    | false =>
      rw [removeDuplicatesAux]
      simp only [hy]
      rw [if_neg (by simp)]
      rw [ih (res ++ [y])]
      simp only [List.mem_append, List.mem_singleton, List.mem_cons]
      tauto

theorem removeDuplicatesAux_split (l1 l2 res : List String) :
    removeDuplicatesAux res (l1 ++ l2) =
      removeDuplicatesAux (removeDuplicatesAux res l1) l2 := by
  induction l1 generalizing res with
  | nil => simp [removeDuplicatesAux]
  | cons x xs ih =>
    cases hx : isIn x res <;> simp [removeDuplicatesAux, hx, ih]

theorem removeDuplicatesAux_of_nodup (l : List String) :
    ∀ res : List String, (res ++ l).Nodup → removeDuplicatesAux res l = res ++ l := by
  induction l with
  | nil => intro res _; simp [removeDuplicatesAux]
  | cons x xs ih =>
    intro res h
    have hnx : x ∉ res := by
      have hdisj := (List.nodup_append.mp h).2.2
      intro hm
      exact hdisj hm (List.mem_cons_self x xs)
    have hx : isIn x res = false := by
      cases hx2 : isIn x res with
      | false => rfl
      | true => exact absurd ((isIn_iff x res).mp hx2) hnx
    have h2 : ((res ++ [x]) ++ xs).Nodup := by
      simpa [List.append_assoc] using h
    rw [removeDuplicatesAux]
    simp only [hx]
    rw [if_neg (by simp)]
    rw [ih (res ++ [x]) h2]
    simp

theorem removeDuplicates_acc_append (acc opt : List String) (h : acc.Nodup) :
    ∃ rest, removeDuplicates (acc ++ opt) = acc ++ rest := by
  unfold removeDuplicates
  rw [removeDuplicatesAux_split]
  rw [removeDuplicatesAux_of_nodup acc [] (by simpa using h)]
  exact removeDuplicatesAux_append opt acc

theorem getCollectorsToRunAux_append (opt : List String) :
    ∀ (sel acc : List String), acc.Nodup →
      ∃ rest, getCollectorsToRunAux opt acc sel = acc ++ rest := by
  intro sel
  induction sel with
  | nil => intro acc _; exact ⟨[], by simp [getCollectorsToRunAux]⟩
  | cons n ns ih =>
    intro acc h
    cases hall : eqFold n "all" with
    | true =>
      obtain ⟨r, hr⟩ := removeDuplicates_acc_append acc opt h
      exact ⟨r, by simp [getCollectorsToRunAux, hall, hr]⟩
    | false =>
      cases hacc : isIn n acc with
      | true =>
        obtain ⟨r, hr⟩ := ih acc h
        exact ⟨r, by simp [getCollectorsToRunAux, hall, hacc, hr]⟩
      | false =>
        cases hopt : isIn n opt with
        | true =>
          obtain ⟨r, hr⟩ := ih (acc ++ [n]) (nodup_append_single acc n h hacc)
          exact ⟨[n] ++ r, by simp [getCollectorsToRunAux, hall, hacc, hopt, hr]⟩
        | false =>
          obtain ⟨r, hr⟩ := ih acc h
          exact ⟨r, by simp [getCollectorsToRunAux, hall, hacc, hopt, hr]⟩

theorem getCollectorsToRunAux_nodup (opt : List String) :
    ∀ (sel acc : List String), acc.Nodup →
      (getCollectorsToRunAux opt acc sel).Nodup := by
  intro sel
  induction sel with
  | nil => intro acc h; simpa [getCollectorsToRunAux] using h
  | cons n ns ih =>
    intro acc h
    cases hall : eqFold n "all" with
    | true =>
      simpa [getCollectorsToRunAux, hall] using
        removeDuplicatesAux_nodup (acc ++ opt) [] (by simp)
    | false =>
      cases hacc : isIn n acc with
      | true => simpa [getCollectorsToRunAux, hall, hacc] using ih acc h
      | false =>
        cases hopt : isIn n opt with
        | true =>
          simpa [getCollectorsToRunAux, hall, hacc, hopt] using
            ih (acc ++ [n]) (nodup_append_single acc n h hacc)
        | false => simpa [getCollectorsToRunAux, hall, hacc, hopt] using ih acc h

theorem getCollectorsToRunAux_mem_all (opt : List String) :
    ∀ (sel acc : List String), (∃ n ∈ sel, eqFold n "all" = true) →
      ∀ o ∈ opt, o ∈ getCollectorsToRunAux opt acc sel := by
  intro sel
  induction sel with
  | nil => intro acc h; rcases h with ⟨n, hn, _⟩; cases hn
  | cons m ms ih =>
    intro acc h o ho
    cases hall : eqFold m "all" with
    | true =>
      simp only [getCollectorsToRunAux, hall, if_true]
      exact (mem_removeDuplicatesAux (acc ++ opt) [] o).mpr
        (Or.inr (List.mem_append_right acc ho))
    | false =>
      have h2 : ∃ n ∈ ms, eqFold n "all" = true := by
        rcases h with ⟨n, hn, he⟩
        rcases List.mem_cons.mp hn with rfl | hn2
        · rw [he] at hall; cases hall
        · exact ⟨n, hn2, he⟩
      cases hacc : isIn m acc with
      | true =>
        simpa [getCollectorsToRunAux, hall, hacc] using ih acc h2 o ho
      | false =>
        cases hopt : isIn m opt with
        | true =>
          simpa [getCollectorsToRunAux, hall, hacc, hopt] using
            ih (acc ++ [m]) h2 o ho
        | false =>
          simpa [getCollectorsToRunAux, hall, hacc, hopt] using ih acc h2 o ho

theorem getCollectorsToRunAux_mem_sub (opt : List String) :
    ∀ (sel acc : List String) (x : String),
      x ∈ getCollectorsToRunAux opt acc sel → x ∈ acc ∨ x ∈ opt := by
  intro sel
  induction sel with
  | nil => intro acc x hx; left; simpa [getCollectorsToRunAux] using hx
  | cons m ms ih =>
    intro acc x hx
    cases hall : eqFold m "all" with
    | true =>
      simp only [getCollectorsToRunAux, hall, if_true] at hx
      have := (mem_removeDuplicatesAux (acc ++ opt) [] x).mp hx
      rcases this with h | h
      · cases h
      · exact List.mem_append.mp h
    | false =>
      cases hacc : isIn m acc with
      | true =>
        simp only [getCollectorsToRunAux, hall, hacc] at hx
        rw [if_neg (by simp)] at hx
        rw [if_pos (by simp)] at hx
        exact ih acc x hx
      | false =>
        cases hopt : isIn m opt with
        | true =>
          simp only [getCollectorsToRunAux, hall, hacc, hopt] at hx
          rw [if_neg (by simp)] at hx
          rw [if_neg (by simp)] at hx
          rw [if_pos (by simp)] at hx
          rcases ih (acc ++ [m]) x hx with h | h
          · rcases List.mem_append.mp h with h2 | h2
            · exact Or.inl h2
            · have : x = m := by simpa using h2
              subst this
              exact Or.inr ((isIn_iff x opt).mp hopt)
          · exact Or.inr h
        | false =>
          simp only [getCollectorsToRunAux, hall, hacc, hopt] at hx
          rw [if_neg (by simp)] at hx
          rw [if_neg (by simp)] at hx
          rw [if_neg (by simp)] at hx
          exact ih acc x hx

theorem getCollectorsToRunAux_mem_exact (opt : List String) :
    ∀ (sel acc : List String) (n : String), acc.Nodup → n ∈ sel → n ∈ opt →
      n ∈ getCollectorsToRunAux opt acc sel := by
  intro sel
  induction sel with
  | nil => intro acc n _ hn _; cases hn
  | cons m ms ih =>
    intro acc n hnd hn hopt
    cases hall : eqFold m "all" with
    | true =>
      simp only [getCollectorsToRunAux, hall, if_true]
      exact (mem_removeDuplicatesAux (acc ++ opt) [] n).mpr
        (Or.inr (List.mem_append_right acc hopt))
    | false =>
      have hoptb : isIn n opt = true := (isIn_iff n opt).mpr hopt
      rcases List.mem_cons.mp hn with rfl | hn2
      · cases hacc : isIn n acc with
        | true =>
          obtain ⟨r, hr⟩ := getCollectorsToRunAux_append opt ms acc hnd
          simp only [getCollectorsToRunAux, hall, hacc]
          rw [if_neg (by simp), if_pos (by simp), hr]
          exact List.mem_append_left r ((isIn_iff n acc).mp hacc)
        | false =>
          obtain ⟨r, hr⟩ :=
            getCollectorsToRunAux_append opt ms (acc ++ [n])
              (nodup_append_single acc n hnd hacc)
          simp only [getCollectorsToRunAux, hall, hacc, hoptb]
          rw [if_neg (by simp), if_neg (by simp), if_pos (by simp), hr]
          simp
      · cases hacc : isIn m acc with
        | true =>
          simp only [getCollectorsToRunAux, hall, hacc]
          rw [if_neg (by simp), if_pos (by simp)]
          exact ih acc n hnd hn2 hopt
        | false =>
          cases hoptm : isIn m opt with
          | true =>
            simp only [getCollectorsToRunAux, hall, hacc, hoptm]
            rw [if_neg (by simp), if_neg (by simp), if_pos (by simp)]
            exact ih (acc ++ [m]) n (nodup_append_single acc m hnd hacc) hn2 hopt
          | false =>
            simp only [getCollectorsToRunAux, hall, hacc, hoptm]
            rw [if_neg (by simp), if_neg (by simp), if_neg (by simp)]
            exact ih acc n hnd hn2 hopt

end Runner

/-- Claim C3: for every request list, the selection function returns a
list that begins with all required collector names, a request containing
the name all makes every optional name appear in the result, every
returned name is a required or an optional name (unrecognized requests
are dropped without failing, the function being total), the result has
no duplicates, and the request consisting of all with required DevInfo
and optional DPLL, GPS registered in that order yields exactly DevInfo,
DPLL, GPS. -/
theorem getCollectorsToRun_selection_spec (required opt sel : List String)
    (hreq : required.Nodup) :
    (∃ rest, Runner.GetCollectorsToRun required opt sel = required ++ rest)
    ∧ ("all" ∈ sel →
        ∀ o ∈ opt, o ∈ Runner.GetCollectorsToRun required opt sel)
    ∧ (∀ x ∈ Runner.GetCollectorsToRun required opt sel,
        x ∈ required ∨ x ∈ opt)
    ∧ (Runner.GetCollectorsToRun required opt sel).Nodup
    ∧ Runner.GetCollectorsToRun ["DevInfo"] ["DPLL", "GPS"] ["all"] =
        ["DevInfo", "DPLL", "GPS"] := by
  refine ⟨Runner.getCollectorsToRunAux_append opt sel required hreq,
    fun hall o ho =>
      Runner.getCollectorsToRunAux_mem_all opt sel required
        ⟨"all", hall, by decide⟩ o ho,
    fun x hx => Runner.getCollectorsToRunAux_mem_sub opt sel required x hx,
    Runner.getCollectorsToRunAux_nodup opt sel required hreq,
    by decide⟩

/-- Witness for claim C3 at the concrete registered names and the
request all. -/
theorem getCollectorsToRun_selection_spec_witness :
    (["DevInfo"] : List String).Nodup
    ∧ "all" ∈ (["all"] : List String)
    ∧ "GPS" ∈ Runner.GetCollectorsToRun ["DevInfo"] ["DPLL", "GPS"] ["all"] :=
  ⟨by decide, by decide,
    (getCollectorsToRun_selection_spec ["DevInfo"] ["DPLL", "GPS"] ["all"]
      (by decide)).2.1 (by decide) "GPS" (by decide)⟩

/-- Claim C4 counterexample: requested optional names are NOT matched
case-insensitively. The request dpll equal-folds to the registered
optional name DPLL, yet the selection drops it as unrecognized and
returns only the required names, so DPLL is absent from the result. -/
theorem getCollectorsToRun_caseInsensitive_counterexample :
    Runner.eqFold "dpll" "DPLL" = true
    ∧ Runner.GetCollectorsToRun ["DevInfo"] ["DPLL", "GPS"] ["dpll"] =
        ["DevInfo"]
    ∧ ¬ "DPLL" ∈ Runner.GetCollectorsToRun ["DevInfo"] ["DPLL", "GPS"] ["dpll"] :=
  ⟨by decide, by decide, by decide⟩

/-- Claim C4 amended: requested optional names are matched against the
registered optional names by exact (case-sensitive) comparison, only the
keyword all being compared case-insensitively; a request that matches an
optional name exactly is always included; the result is de-duplicated.
The request dpll, DPLL therefore yields DevInfo, DPLL (dpll is dropped
as unrecognized, DPLL matches exactly), and the request dpll alone
yields only DevInfo. -/
theorem getCollectorsToRun_exactMatch_spec (required opt sel : List String)
    (n : String) (hreq : required.Nodup) (hn : n ∈ sel) (hopt : n ∈ opt) :
    n ∈ Runner.GetCollectorsToRun required opt sel
    ∧ Runner.GetCollectorsToRun ["DevInfo"] ["DPLL", "GPS"] ["dpll", "DPLL"] =
        ["DevInfo", "DPLL"]
    ∧ Runner.GetCollectorsToRun ["DevInfo"] ["DPLL", "GPS"] ["dpll"] =
        ["DevInfo"] :=
  ⟨Runner.getCollectorsToRunAux_mem_exact opt sel required n hreq hn hopt,
    by decide, by decide⟩

/-- Witness for the amended claim C4 at the concrete request dpll,
DPLL. -/
theorem getCollectorsToRun_exactMatch_spec_witness :
    (["DevInfo"] : List String).Nodup
    ∧ "DPLL" ∈ (["dpll", "DPLL"] : List String)
    ∧ "DPLL" ∈ (["DPLL", "GPS"] : List String)
    ∧ "DPLL" ∈ Runner.GetCollectorsToRun ["DevInfo"] ["DPLL", "GPS"]
        ["dpll", "DPLL"] :=
  ⟨by decide, by decide, by decide,
    (getCollectorsToRun_exactMatch_spec ["DevInfo"] ["DPLL", "GPS"]
      ["dpll", "DPLL"] "DPLL" (by decide) (by decide) (by decide)).1⟩

namespace Collectors

theorem runningKeys_cons (a : String) (b : Bool) (l : List (String × Bool)) :
    runningKeys ((a, b) :: l) = a :: runningKeys l := rfl

theorem mem_keys_setRunning (k : String) (v : Bool) (x : String) :
    ∀ r : List (String × Bool),
      x ∈ runningKeys (setRunning r k v) → x ∈ runningKeys r ∨ x = k := by
  intro r
  induction r with
  | nil =>
    intro h
    simp [setRunning, runningKeys] at h
    exact Or.inr h
  | cons p rest ih =>
    obtain ⟨k0, v0⟩ := p
    intro h
    simp only [setRunning] at h
    by_cases hk : k0 = k
    · rw [if_pos hk] at h
      rw [runningKeys_cons] at h
      rw [runningKeys_cons]
      exact Or.inl h
    · rw [if_neg hk] at h
      rw [runningKeys_cons] at h
      rw [runningKeys_cons]
      rcases List.mem_cons.mp h with rfl | h2
      · exact Or.inl (List.mem_cons_self x (runningKeys rest))
      · rcases ih h2 with h3 | h3
        · exact Or.inl (List.mem_cons_of_mem k0 h3)
        · exact Or.inr h3

theorem mem_keys_delRunning (k : String) (x : String) :
    ∀ r : List (String × Bool),
      x ∈ runningKeys (delRunning r k) → x ∈ runningKeys r := by
  intro r
  induction r with
  | nil => intro h; simpa [delRunning, runningKeys] using h
  | cons p rest ih =>
    obtain ⟨k0, v0⟩ := p
    intro h
    simp only [delRunning] at h
    rw [runningKeys_cons]
    by_cases hk : k0 = k
    · rw [if_pos hk] at h
      exact List.mem_cons_of_mem k0 h
    · rw [if_neg hk] at h
      rw [runningKeys_cons] at h
      rcases List.mem_cons.mp h with rfl | h2
      · exact List.mem_cons_self x (runningKeys rest)
      · exact List.mem_cons_of_mem k0 (ih h2)

theorem mem_keys_foldl_set (l : List String) :
    ∀ (r : List (String × Bool)) (x : String),
      x ∈ runningKeys (l.foldl (fun r dt => setRunning r dt true) r) →
      x ∈ runningKeys r ∨ x ∈ l := by
  induction l with
  | nil => intro r x h; exact Or.inl (by simpa using h)
  | cons d ds ih =>
    intro r x h
    simp only [List.foldl_cons] at h
    rcases ih (setRunning r d true) x h with h2 | h2
    · rcases mem_keys_setRunning d true x r h2 with h3 | h3
      · exact Or.inl h3
      · exact Or.inr (by simp [h3])
    · exact Or.inr (List.mem_cons_of_mem d h2)

theorem applyCall_DataTypes (dev : PTPCollector) (c : CollectorCall) :
    ((applyCall dev c).1).DataTypes = dev.DataTypes := by
  cases c with
  | start k =>
    by_cases hk : k = All
    · simp [applyCall, Start, hk]
    · by_cases hin : k ∈ dev.DataTypes <;>
        simp [applyCall, Start, hk, getErrorIfNotCollectable, hin]
  | cleanUp k =>
    by_cases hk : k = All
    · simp [applyCall, CleanUp, hk]
    · by_cases hin : k ∈ dev.DataTypes <;>
        simp [applyCall, CleanUp, hk, getErrorIfNotCollectable, hin]

theorem applyCall_subset (dev : PTPCollector) (c : CollectorCall)
    (h : ∀ x ∈ runningKeys dev.running, x ∈ dev.DataTypes) :
    ∀ x ∈ runningKeys ((applyCall dev c).1).running, x ∈ dev.DataTypes := by
  cases c with
  | start k =>
    by_cases hk : k = All
    · intro x hx
      simp only [applyCall, Start, hk, if_pos] at hx
      rcases mem_keys_foldl_set dev.DataTypes dev.running x hx with h2 | h2
      · exact h x h2
      · exact h2
    · by_cases hin : k ∈ dev.DataTypes
      · intro x hx
        simp [applyCall, Start, hk, getErrorIfNotCollectable, hin] at hx
        rcases mem_keys_setRunning k true x dev.running hx with h2 | h2
        · exact h x h2
        · exact h2 ▸ hin
      · intro x hx
        simp [applyCall, Start, hk, getErrorIfNotCollectable, hin] at hx
        exact h x hx
  | cleanUp k =>
    by_cases hk : k = All
    · intro x hx
      simp [applyCall, CleanUp, hk, runningKeys] at hx
    · by_cases hin : k ∈ dev.DataTypes
      · intro x hx
        simp [applyCall, CleanUp, hk, getErrorIfNotCollectable, hin] at hx
        exact h x (mem_keys_delRunning k x dev.running hx)
      · intro x hx
        simp [applyCall, CleanUp, hk, getErrorIfNotCollectable, hin] at hx
        exact h x hx

theorem replayCalls_DataTypes (calls : List CollectorCall) :
    ∀ dev : PTPCollector, (replayCalls dev calls).DataTypes = dev.DataTypes := by
  induction calls with
  | nil => intro dev; simp [replayCalls]
  | cons c cs ih =>
    intro dev
    simp only [replayCalls]
    rw [ih (applyCall dev c).1, applyCall_DataTypes]

theorem replayCalls_subset (calls : List CollectorCall) :
    ∀ dev : PTPCollector,
      (∀ x ∈ runningKeys dev.running, x ∈ dev.DataTypes) →
      ∀ x ∈ runningKeys (replayCalls dev calls).running,
        x ∈ (replayCalls dev calls).DataTypes := by
  induction calls with
  | nil => intro dev h; simpa [replayCalls] using h
  | cons c cs ih =>
    intro dev h
    simp only [replayCalls]
    apply ih (applyCall dev c).1
    intro x hx
    rw [applyCall_DataTypes]
    exact applyCall_subset dev c h x hx

/-- One running key contributes one error exactly when it fails; the
error list of a PTP poll cycle has one entry per failing running key. -/
theorem pollErrorsPTP_length (w : PTPPollWorld) :
    ∀ running : List (String × Bool),
      (pollErrorsPTP w running).length =
        (running.filter fun kv => kv.2 && keyFails w kv.1).length := by
  intro running
  induction running with
  | nil => simp [pollErrorsPTP]
  | cons kv rest ih =>
    obtain ⟨key, isRunning⟩ := kv
    cases isRunning with
    | false => simpa [pollErrorsPTP, keyFails] using ih
    | true =>
      cases hf : w.fetchLine key with
      | error e => simp [pollErrorsPTP, keyFails, hf, ih]
      | ok line =>
        cases hc : w.callbackCall ptpTypeName key line with
        | none => simp [pollErrorsPTP, keyFails, hf, hc, ih]
        | some e => simp [pollErrorsPTP, keyFails, hf, hc, ih]

end Collectors

/-- Claim C5: on the PTP collector, a Start or CleanUp call with a key
that is neither all nor one of the collectable keys (DataTypes) returns
the not-collectable error and leaves the collector, in particular its
running map, unchanged; and replaying any sequence of Start and CleanUp
calls from a state whose running keys are among the collectable keys
(the constructor starts from an empty running map) always leaves the
running keys a subset of the collectable keys. -/
theorem ptp_start_cleanup_spec :
    (∀ (dev : Collectors.PTPCollector) (k : String),
      k ≠ Collectors.All → k ∉ dev.DataTypes →
      Collectors.Start dev k = (dev, some (Collectors.notCollectableError k))
      ∧ Collectors.CleanUp dev k =
          (dev, some (Collectors.notCollectableError k)))
    ∧ (∀ (dev : Collectors.PTPCollector)
        (calls : List Collectors.CollectorCall),
      (∀ x ∈ Collectors.runningKeys dev.running, x ∈ dev.DataTypes) →
      ∀ x ∈ Collectors.runningKeys
          (Collectors.replayCalls dev calls).running,
        x ∈ (Collectors.replayCalls dev calls).DataTypes) := by
  constructor
  · intro dev k hk hin
    constructor
    · simp [Collectors.Start, hk, Collectors.getErrorIfNotCollectable, hin]
    · simp [Collectors.CleanUp, hk, Collectors.getErrorIfNotCollectable, hin]
  · intro dev calls h
    exact Collectors.replayCalls_subset calls dev h

/-- Witness for claim C5: on the sample collector, the unrecognized key
bogus is rejected without a state change, and replaying a start of
device-info followed by a cleanup of all keeps the running keys inside
the collectable keys. -/
theorem ptp_start_cleanup_spec_witness :
    ("bogus" ≠ Collectors.All)
    ∧ ¬ "bogus" ∈ Collectors.samplePTP.DataTypes
    ∧ Collectors.Start Collectors.samplePTP "bogus" =
        (Collectors.samplePTP, some (Collectors.notCollectableError "bogus"))
    ∧ (∀ x ∈ Collectors.runningKeys
          (Collectors.replayCalls Collectors.samplePTP
            [.start "device-info", .cleanUp "all"]).running,
        x ∈ (Collectors.replayCalls Collectors.samplePTP
            [.start "device-info", .cleanUp "all"]).DataTypes) :=
  ⟨by decide, by decide,
    (ptp_start_cleanup_spec.1 Collectors.samplePTP "bogus" (by decide)
      (by decide)).1,
    ptp_start_cleanup_spec.2 Collectors.samplePTP
      [.start "device-info", .cleanUp "all"]
      (by simp [Collectors.samplePTP, Collectors.runningKeys])⟩

/-- Claim C1 evaluated at the failing input: a GPS collector that was
never started (running is false) whose fetch fails. The source of
GPSCollector.Poll never consults the running flag, so the cycle still
emits exactly one Poll Outcome, but that outcome carries one error while
the number of currently-running keys that failed the cycle is zero: the
error count clause of the claim fails on the GPS collector (it does hold
for the PTP collector, see pollErrorsPTP_length). -/
theorem gpsPoll_unstarted_error_outcome :
    (Collectors.gpsPoll { running := false, count := 0 }
      { getGPSNav := .error "failed to fetch gpsNav",
        marshal := fun nav => .ok nav,
        callbackCall := fun _ _ _ => none }).sent =
      [{ CollectorName := Collectors.GPSCollectorName,
         Errors := ["failed to fetch gpsNav"] }]
    ∧ ({ running := false, count := 0 } : Collectors.GPSCollector).running
        = false :=
  ⟨rfl, rfl⟩

/-- Claim C2 evaluated at the failing input: a GPS collector that was
never started (running is false). GPSCollector.Poll attempts the fetch
(devices.GetGPSNav) unconditionally, so data is fetched for a key that
is not in the Running state, contradicting the claim that only running
keys are fetched (the PTP collector does skip non-running keys). -/
theorem gpsPoll_unstarted_fetch_attempted :
    (Collectors.gpsPoll { running := false, count := 0 }
      { getGPSNav := .ok "navPayload",
        marshal := fun nav => .ok nav,
        callbackCall := fun _ _ _ => none }).fetchAttempted = true
    ∧ ({ running := false, count := 0 } : Collectors.GPSCollector).running
        = false :=
  ⟨rfl, rfl⟩

/-- Claim C9: the PTP collector constructor yields a collector only when
the initially fetched device info reports the Intel vendor id 0x8086 and
the E810 device id 0x1593. Whenever the fetched info carries any other
vendor or device pair the construction returns an error (the result
being an error, no collector value is produced; when the earlier steps
succeed the error is exactly NIC device is not based on E810), and any
successfully produced collector stores an initially fetched device info
with exactly that vendor and device pair. -/
theorem newPTPCollector_requires_E810 (w : Collectors.NewPTPWorld) :
    (∀ info, w.getPTPDeviceInfo = .ok info →
      info.VendorID ≠ "0x8086" ∨ info.DeviceID ≠ "0x1593" →
      ∃ e, Collectors.NewPTPCollector w = .error e)
    ∧ (∀ ctx info dpll, w.newContainerContext = .ok ctx →
        w.getPTPDeviceInfo = .ok info → w.getDevDPLLInfo = .ok dpll →
        info.VendorID ≠ "0x8086" ∨ info.DeviceID ≠ "0x1593" →
        Collectors.NewPTPCollector w = .error "NIC device is not based on E810")
    ∧ (∀ col, Collectors.NewPTPCollector w = .ok col →
        w.getPTPDeviceInfo = .ok col.devInfoData
        ∧ col.devInfoData.VendorID = "0x8086"
        ∧ col.devInfoData.DeviceID = "0x1593") := by
  refine ⟨?_, ?_, ?_⟩
  · intro info hinfo hne
    unfold Collectors.NewPTPCollector
    cases hctx : w.newContainerContext with
    | error e => exact ⟨_, rfl⟩
    | ok ctx =>
      rw [hinfo]
      cases hdpll : w.getDevDPLLInfo with
      | error e => exact ⟨_, rfl⟩
      | ok dpll =>
        have hcond : info.VendorID ≠ Collectors.VendorIntel
            ∨ info.DeviceID ≠ Collectors.DeviceE810 := by
          simpa [Collectors.VendorIntel, Collectors.DeviceE810] using hne
        dsimp only
        rw [if_pos hcond]
        exact ⟨_, rfl⟩
  · intro ctx info dpll hctx hinfo hdpll hne
    unfold Collectors.NewPTPCollector
    rw [hctx, hinfo, hdpll]
    have hcond : info.VendorID ≠ Collectors.VendorIntel
        ∨ info.DeviceID ≠ Collectors.DeviceE810 := by
      simpa [Collectors.VendorIntel, Collectors.DeviceE810] using hne
    dsimp only
    rw [if_pos hcond]
  · intro col hcol
    unfold Collectors.NewPTPCollector at hcol
    cases hctx : w.newContainerContext with
    | error e => rw [hctx] at hcol; simp at hcol
    | ok ctx =>
      rw [hctx] at hcol
      cases hinfo : w.getPTPDeviceInfo with
      | error e => rw [hinfo] at hcol; simp at hcol
      | ok info =>
        rw [hinfo] at hcol
        cases hdpll : w.getDevDPLLInfo with
        | error e => rw [hdpll] at hcol; simp at hcol
        | ok dpll =>
          rw [hdpll] at hcol
          dsimp only at hcol
          by_cases hcond : info.VendorID ≠ Collectors.VendorIntel
              ∨ info.DeviceID ≠ Collectors.DeviceE810
          · rw [if_pos hcond] at hcol; simp at hcol
          · rw [if_neg hcond] at hcol
            push_neg at hcond
            have heq := Except.ok.inj hcol
            subst heq
            exact ⟨rfl, hcond.1, hcond.2⟩

/-- Witness for claim C9: a world whose initial device info reports the
vendor id 0x8087 makes the construction fail. -/
theorem newPTPCollector_requires_E810_witness :
    (("0x8087" : String) ≠ "0x8086" ∨ ("0x1593" : String) ≠ "0x1593")
    ∧ ∃ e, Collectors.NewPTPCollector
        { newContainerContext := .ok Collectors.sampleCtx,
          getPTPDeviceInfo := .ok ⟨"0x8087", "0x1593", "/dev/gnss0"⟩,
          getDevDPLLInfo := .ok ⟨"3", "0"⟩,
          ptpInterface := "ens1f0" } = .error e :=
  ⟨Or.inl (by decide),
    (newPTPCollector_requires_E810 _).1 ⟨"0x8087", "0x1593", "/dev/gnss0"⟩
      rfl (Or.inl (by decide))⟩

namespace Vaildations

theorem splitOnChar_ne_nil (c : Char) :
    ∀ s : List Char, splitOnChar c s ≠ [] := by
  intro s
  induction s with
  | nil => simp [splitOnChar]
  | cons x xs ih =>
    by_cases hx : x = c
    · simp [splitOnChar, hx]
    · cases hrest : splitOnChar c xs with
      | nil => exact absurd hrest ih
      | cons r rs => simp [splitOnChar, hx, hrest]

theorem length_splitOnChar (c : Char) :
    ∀ s : List Char, (splitOnChar c s).length = s.count c + 1 := by
  intro s
  induction s with
  | nil => simp [splitOnChar]
  | cons x xs ih =>
    by_cases hx : x = c
    · subst hx
      simp [splitOnChar, List.count_cons, ih]
    · cases hrest : splitOnChar c xs with
      | nil => exact absurd hrest (splitOnChar_ne_nil c xs)
      | cons r rs =>
        rw [hrest] at ih
        simp [splitOnChar, hx, hrest, List.count_cons, Ne.symm hx]
        simpa using ih

theorem length_goSplitSpace (s : String) :
    (goSplitSpace s).length = s.data.count ' ' + 1 := by
  unfold goSplitSpace
  rw [List.length_map]
  exact length_splitOnChar ' ' s.data

end Vaildations

/-- Claim C10: NewGNSS splits the firmware version on spaces and takes
the element at index 1 as the version to check. When the firmware
version contains at least one space the split has at least two elements,
the index is in range, and the returned check stores that second token
(and the whole firmware string as Version); when the firmware version
contains no space the index 1 access is out of bounds, i.e. the Go code
panics, modelled as the none result: the operation is not total without
the precondition. -/
theorem newGNSS_secondToken_spec (g : Vaildations.GPSDetails) :
    (' ' ∈ g.FirmwareVersion.data →
      2 ≤ (Vaildations.goSplitSpace g.FirmwareVersion).length
      ∧ ∃ vc, Vaildations.NewGNSS g = some vc
          ∧ (Vaildations.goSplitSpace g.FirmwareVersion).get? 1 =
              some vc.checkVersion
          ∧ vc.Version = g.FirmwareVersion
          ∧ vc.minVersion = Vaildations.MinGNSSVersion)
    ∧ (¬ ' ' ∈ g.FirmwareVersion.data → Vaildations.NewGNSS g = none) := by
  constructor
  · intro hmem
    have hcount : 0 < g.FirmwareVersion.data.count ' ' :=
      List.count_pos_iff.mpr hmem
    have hlen : 2 ≤ (Vaildations.goSplitSpace g.FirmwareVersion).length := by
      rw [Vaildations.length_goSplitSpace]
      omega
    refine ⟨hlen, ?_⟩
    cases hget : (Vaildations.goSplitSpace g.FirmwareVersion).get? 1 with
    | none =>
      have := List.get?_eq_none.mp hget
      omega
    | some cv =>
      refine ⟨{ id := Vaildations.gnssID, Version := g.FirmwareVersion,
                checkVersion := cv,
                minVersion := Vaildations.MinGNSSVersion }, ?_, rfl, rfl, rfl⟩
      have hget2 : (Vaildations.goSplitSpace g.FirmwareVersion)[1]? = some cv := by
        rw [← List.get?_eq_getElem?]
        exact hget
      simp [Vaildations.NewGNSS, hget2]
  · intro hmem
    have hcount : g.FirmwareVersion.data.count ' ' = 0 :=
      List.count_eq_zero.mpr hmem
    have hlen : (Vaildations.goSplitSpace g.FirmwareVersion).length = 1 := by
      rw [Vaildations.length_goSplitSpace, hcount]
    have hget : (Vaildations.goSplitSpace g.FirmwareVersion).get? 1 = none :=
      List.get?_eq_none.mpr (by omega)
    have hget2 : (Vaildations.goSplitSpace g.FirmwareVersion)[1]? = none := by
      rw [← List.get?_eq_getElem?]
      exact hget
    simp [Vaildations.NewGNSS, hget2]

/-- Witness for claim C10: a firmware version string with spaces yields
a check of its second space-separated token. -/
theorem newGNSS_secondToken_spec_witness :
    ' ' ∈ ("EXT CORE 2.20" : String).data
    ∧ (2 ≤ (Vaildations.goSplitSpace "EXT CORE 2.20").length
      ∧ ∃ vc, Vaildations.NewGNSS { FirmwareVersion := "EXT CORE 2.20" } =
            some vc
          ∧ (Vaildations.goSplitSpace "EXT CORE 2.20").get? 1 =
              some vc.checkVersion
          ∧ vc.Version = "EXT CORE 2.20"
          ∧ vc.minVersion = Vaildations.MinGNSSVersion) :=
  ⟨by decide,
    (newGNSS_secondToken_spec { FirmwareVersion := "EXT CORE 2.20" }).1
      (by decide)⟩

namespace Clients

theorem waitForPodToDelete_timeout (podName : String) :
    ∀ listings, (∀ l ∈ listings, ∃ pods, l = .ok pods ∧ podName ∈ pods) →
      waitForPodToDelete podName listings =
        .error "pod has not terminated within the timeout" := by
  intro listings
  induction listings with
  | nil => intro _; rfl
  | cons l rest ih =>
    intro h
    obtain ⟨pods, rfl, hmem⟩ := h l (List.mem_cons_self l rest)
    simp only [waitForPodToDelete, if_pos hmem]
    exact ih fun l2 hl2 => h l2 (List.mem_cons_of_mem _ hl2)

theorem processCommands_length {σ : Type}
    (step : σ → String → ShellResult × σ) :
    ∀ (cmds : List String) (s : σ),
      (processCommands step s cmds).1.length = cmds.length := by
  intro cmds
  induction cmds with
  | nil => intro s; rfl
  | cons c cs ih => intro s; simp [processCommands, ih]

theorem processCommands_take {σ : Type}
    (step : σ → String → ShellResult × σ) :
    ∀ (cmds : List String) (s : σ) (n : Nat),
      (processCommands step s (cmds.take n)).1 =
        (processCommands step s cmds).1.take n := by
  intro cmds
  induction cmds with
  | nil => intro s n; simp [processCommands]
  | cons c cs ih =>
    intro s n
    cases n with
    | zero => simp [processCommands]
    | succ m => simp [processCommands, ih]

theorem processCommands_snoc {σ : Type}
    (step : σ → String → ShellResult × σ) :
    ∀ (cmds : List String) (s : σ) (cmd : String),
      processCommands step s (cmds ++ [cmd]) =
        ((processCommands step s cmds).1 ++
            [(step (processCommands step s cmds).2 cmd).1],
          (step (processCommands step s cmds).2 cmd).2) := by
  intro cmds
  induction cmds with
  | nil => intro s cmd; simp [processCommands]
  | cons c cs ih => intro s cmd; simp [processCommands, ih]

end Clients

/-- Claim C6: when a per-call exec invocation fails with a not-found
response, the call makes no second stream attempt (streamCalls stays 1),
still returns the wrapped error of the original attempt together with
the stdout and stderr captured by that attempt, and only the context
left for subsequent calls carries the re-resolved pod name (the stored
prefix resolving to a new name; a failed re-resolution leaves the
context unchanged). -/
theorem execCommand_notFound_no_retry (c : Clients.ContainerExecContext)
    (w : Clients.ExecWorld) (e : Clients.K8sErr)
    (hsetup : w.setupErr = none) (hstream : w.streamErr = some e)
    (hnf : Clients.isNotFound e = true) :
    (Clients.execCommand c w).err = some (.runFailed e)
    ∧ (Clients.execCommand c w).stdout = w.streamStdout
    ∧ (Clients.execCommand c w).stderr = w.streamStderr
    ∧ (Clients.execCommand c w).streamCalls = 1
    ∧ (∀ n, w.findPodNameFromPfx = .ok n →
        (Clients.execCommand c w).ctxAfter = { c with podName := n })
    ∧ (∀ e2, w.findPodNameFromPfx = .error e2 →
        (Clients.execCommand c w).ctxAfter = c) := by
  refine ⟨?_, ?_, ?_, ?_, ?_, ?_⟩
  · simp [Clients.execCommand, hsetup, hstream, hnf]
  · simp [Clients.execCommand, hsetup, hstream, hnf]
  · simp [Clients.execCommand, hsetup, hstream, hnf]
  · simp [Clients.execCommand, hsetup, hstream, hnf]
  · intro n hn
    simp [Clients.execCommand, hsetup, hstream, hnf, Clients.refresh, hn]
  · intro e2 he2
    simp [Clients.execCommand, hsetup, hstream, hnf, Clients.refresh, he2]

/-- Witness for claim C6: a concrete not-found failure returns the
original error with the captured output after exactly one stream
attempt, and leaves the re-resolved name for the next call. -/
theorem execCommand_notFound_no_retry_witness :
    Clients.sampleExecWorld.setupErr = none
    ∧ Clients.sampleExecWorld.streamErr = some .notFound
    ∧ (Clients.execCommand Collectors.sampleCtx Clients.sampleExecWorld).err =
        some (.runFailed .notFound)
    ∧ (Clients.execCommand Collectors.sampleCtx
        Clients.sampleExecWorld).streamCalls = 1
    ∧ (Clients.execCommand Collectors.sampleCtx
        Clients.sampleExecWorld).ctxAfter =
        { Collectors.sampleCtx with podName := "linuxptp-daemon-new12" } :=
  ⟨rfl, rfl,
    (execCommand_notFound_no_retry Collectors.sampleCtx
      Clients.sampleExecWorld .notFound rfl rfl rfl).1,
    (execCommand_notFound_no_retry Collectors.sampleCtx
      Clients.sampleExecWorld .notFound rfl rfl rfl).2.2.2.1,
    (execCommand_notFound_no_retry Collectors.sampleCtx
      Clients.sampleExecWorld .notFound rfl rfl rfl).2.2.2.2.1
      "linuxptp-daemon-new12" rfl⟩

/-- Claim C7 counterexample: when the pod is already absent at the time
of the call the kubernetes delete API answers not-found, deletePod wraps
and returns that error, and DeletePodAndWait propagates it: the call
does NOT succeed, even though the listing confirms the pod is gone, so
the tolerates-already-absent part of the claim fails. -/
theorem deletePodAndWait_absent_counterexample :
    Clients.DeletePodAndWait Collectors.sampleCtx
      { deleteErr := some "pods linuxptp-daemon-x7b2f not found",
        listings := [.ok []] } =
      .error "failed to delete pod: pods linuxptp-daemon-x7b2f not found" :=
  rfl

/-- Claim C7 amended: DeletePodAndWait issues a foreground cascading
delete for the stored pod name; any error of the delete call itself
(including the not-found answer the API gives when the pod is already
absent) is wrapped and returned rather than tolerated; after a
successful delete call the listing is polled until the pod name
disappears (succeeding as soon as a listing lacks the name, in
particular immediately when the pod is already gone from the first
listing) and the timeout error is returned when the name is still
present in every listing of the waiting budget. -/
theorem deletePodAndWait_spec (c : Clients.ContainerExecContext)
    (w : Clients.DeleteWorld) :
    ((Clients.deletePodRequest c).policy = Clients.PropPolicy.foreground
      ∧ (Clients.deletePodRequest c).name = c.podName)
    ∧ (∀ e, w.deleteErr = some e →
        Clients.DeletePodAndWait c w =
          .error ("failed to delete pod: " ++ e))
    ∧ (w.deleteErr = none →
        (∀ l ∈ w.listings, ∃ pods, l = .ok pods ∧ c.podName ∈ pods) →
        Clients.DeletePodAndWait c w =
          .error "pod has not terminated within the timeout")
    ∧ (∀ pods rest, w.deleteErr = none →
        w.listings = .ok pods :: rest → ¬ c.podName ∈ pods →
        Clients.DeletePodAndWait c w = .ok ()) := by
  refine ⟨⟨rfl, rfl⟩, ?_, ?_, ?_⟩
  · intro e he
    simp [Clients.DeletePodAndWait, he]
  · intro hnone hall
    simp only [Clients.DeletePodAndWait, hnone]
    exact Clients.waitForPodToDelete_timeout c.podName w.listings hall
  · intro pods rest hnone hlist hmem
    simp [Clients.DeletePodAndWait, hnone, hlist,
      Clients.waitForPodToDelete, hmem]

/-- Witness for the amended claim C7: the request is a foreground
delete, and deleting with a successful delete call whose first listing
lacks the pod name succeeds immediately. -/
theorem deletePodAndWait_spec_witness :
    (Clients.deletePodRequest Collectors.sampleCtx).policy =
      Clients.PropPolicy.foreground
    ∧ Clients.DeletePodAndWait Collectors.sampleCtx
        { deleteErr := none, listings := [.ok ["other-pod"]] } = .ok () :=
  ⟨(deletePodAndWait_spec Collectors.sampleCtx
      { deleteErr := none, listings := [.ok ["other-pod"]] }).1.1,
    (deletePodAndWait_spec Collectors.sampleCtx
      { deleteErr := none, listings := [.ok ["other-pod"]] }).2.2.2
      ["other-pod"] [] rfl rfl (by decide)⟩

/-- Claim C8: the persistent-session command serializer consumes the
command queue strictly serially in submission order: it delivers exactly
one response per submitted command (N responses for N commands), the
first n responses are fully determined by the first n commands alone (so
no response is delivered before its corresponding command has been
sent), and submitting one more command appends exactly one more
response, computed from the shell state left after all previous commands
completed. -/
theorem processCommands_serialized {σ : Type}
    (step : σ → String → Clients.ShellResult × σ) (s : σ)
    (cmds : List String) :
    (Clients.processCommands step s cmds).1.length = cmds.length
    ∧ (∀ n, (Clients.processCommands step s (cmds.take n)).1 =
        (Clients.processCommands step s cmds).1.take n)
    ∧ (∀ cmd, Clients.processCommands step s (cmds ++ [cmd]) =
        ((Clients.processCommands step s cmds).1 ++
            [(step (Clients.processCommands step s cmds).2 cmd).1],
          (step (Clients.processCommands step s cmds).2 cmd).2)) :=
  ⟨Clients.processCommands_length step cmds s,
    fun n => Clients.processCommands_take step cmds s n,
    fun cmd => Clients.processCommands_snoc step cmds s cmd⟩
